import Mathlib

/-!
Verification of the SCSA Pseudocode interpreter.

This file gives a shallow embedding of the repository's source code and
settles the frozen claims about it.  The repository contains two
generations of the interpreter:

* the current visitor-based pipeline under `src/` (`lexer.cpp`,
  `errors.cpp` which holds the `Parser`, `interpreter.cpp` over the
  `RuntimeValue` type of `runtime.hpp`), and
* the tree-walker generation (`tree-walker.hpp` / its implementation
  file) with its own `Value`, `Environment`, `FunctionObject`,
  `ClassObject`, `InstanceObject` and `Interpreter`.

Both are embedded where claims cite them.  Machine doubles are modelled
as rationals (`ℚ`); IEEE-754 rounding, overflow, infinities and NaN are
outside the model, and the one claim that is about them is reported as
not statable.  `std::shared_ptr` heaps (environments, instances) are
modelled as explicit lists indexed by allocation order; execution is
fuel-bounded so that every definition is a computable structural
recursion.
-/

namespace SCSA

/-! ## Token model (`lexer.hpp`) -/

/-- Token kinds, mirroring `enum TokenType` in `lexer.hpp`. -/
inductive TokenType where
  | TOK_EOF
  | TOK_IDENTIFIER | TOK_STRING | TOK_INTEGER | TOK_FLOAT | TOK_TRUE | TOK_FALSE
  | TOK_CLASS | TOK_INHERITS | TOK_ATTRIBUTES | TOK_METHODS
  | TOK_FUNCTION | TOK_RETURN | TOK_NEW | TOK_END
  | TOK_IF | TOK_THEN | TOK_ELSE | TOK_WHILE | TOK_FOR | TOK_IN | TOK_PRINT
  | TOK_ASSIGN | TOK_PLUS | TOK_MINUS | TOK_MULTIPLY | TOK_DIVIDE
  | TOK_EQUAL | TOK_GREATER_THAN | TOK_GT_OR_EQ | TOK_LESS_THAN | TOK_LT_OR_EQ
  | TOK_DOT | TOK_COLON | TOK_COMMA
  | TOK_LPAREN | TOK_RPAREN | TOK_LBRACKET | TOK_RBRACKET
deriving DecidableEq, Repr

/-- A token as produced by the current lexer: kind, lexeme, 1-based line,
0-based column, and length in characters (`struct Token` in `lexer.hpp`). -/
structure Token where
  type : TokenType
  lexeme : String
  line : Nat
  column : Nat
  length : Nat
deriving DecidableEq, Repr

/-! ## AST (`ast.hpp`) -/

/-- Expression nodes, mirroring the expression structs of `ast.hpp`
(`LiteralExpr`, `VariableExpr`, `AssignExpr`, `BinaryExpr`, `CallExpr`,
`GetExpr`, `ArrayAccessExpr`, `ArrayLitExpr`, `NewExpr`). -/
inductive Expr where
  | literal (token : Token)
  | var (name : Token)
  | assign (target : Expr) (value : Expr)
  | binary (left : Expr) (op : Token) (right : Expr)
  | call (callee : Expr) (args : List Expr)
  | get (object : Expr) (name : Token)
  | arrayAccess (array : Expr) (index : Expr)
  | arrayLit (elements : List Expr)
  | newExpr (className : Token) (args : List Expr)
deriving Repr

/-- Statement nodes, mirroring the statement structs of `ast.hpp`
(`ExpressionStmt`, `PrintStmt`, `ReturnStmt`, `IfStmt`, `WhileStmt`,
`FunctionStmt`, `ClassStmt`).  The tree-walker AST stores a whole
`IfStmt`/`WhileStmt` branch as a flat statement list, and a `ClassStmt`
stores its methods as statements (only `FunctionStmt`s are used). -/
inductive Stmt where
  | expression (e : Expr)
  | print (e : Expr)
  | ret (value : Option Expr)
  | ifStmt (condition : Expr) (thenBranch : List Stmt) (elseBranch : List Stmt)
  | whileStmt (condition : Expr) (body : List Stmt)
  | function (name : Token) (params : List Token) (body : List Stmt)
  | classStmt (name : Token) (superclass : Token) (methods : List Stmt)
deriving Repr

/-! ## Runtime values of the tree-walker generation (`tree-walker.hpp`)

`struct Value` there holds a `std::variant` of: `std::monostate` (null),
`double`, `std::string`, `bool`, `std::vector<Value>` — arrays stored by
value inside the variant — `std::shared_ptr<CallableObject>` and
`std::shared_ptr<InstanceObject>`.  Doubles are modelled as `ℚ`;
instances live in an explicit heap and a value carries the heap index,
mirroring the shared pointer.  Arrays are a plain `List Value`, exactly
because the source stores the vector by value, not behind a pointer. -/

/-- `FunctionObject`: the referenced `FunctionStmt`'s pieces plus the
captured closure environment (a heap index for the `shared_ptr<Environment>`). -/
structure FunctionObject where
  name : Token
  params : List Token
  body : List Stmt
  closure : Nat
deriving Repr

/-- `ClassObject`: name, optional superclass, and the method table
(`std::map<std::string, std::shared_ptr<FunctionObject>>`, modelled as an
association list keyed by method name). -/
inductive ClassObject where
  | mk (name : String) (superclass : Option ClassObject)
       (methods : List (String × FunctionObject))
deriving Repr

/-- Class name accessor. -/
def ClassObject.name : ClassObject → String
  | .mk n _ _ => n

/-- Superclass accessor. -/
def ClassObject.superclass : ClassObject → Option ClassObject
  | .mk _ s _ => s

/-- Method-table accessor. -/
def ClassObject.methods : ClassObject → List (String × FunctionObject)
  | .mk _ _ m => m

/-- `CallableObject` concrete variants: `FunctionObject` or `ClassObject`. -/
inductive Callable where
  | function (f : FunctionObject)
  | classObj (c : ClassObject)
deriving Repr

/-- The tree-walker's `Value` variant. -/
inductive Value where
  | vnull
  | vnum (n : ℚ)
  | vstr (s : String)
  | vbool (b : Bool)
  | varr (elements : List Value)
  | vcallable (c : Callable)
  | vinstance (id : Nat)
deriving Repr

/-- `InstanceObject`: reference to its class and a mutable field table. -/
structure InstanceObject where
  klass : ClassObject
  fields : List (String × Value)
deriving Repr

/-- An `Environment` frame: a name→value map plus an optional parent frame
(the parent `shared_ptr` is a heap index). -/
structure Environment where
  values : List (String × Value)
  parent : Option Nat
deriving Repr

/-- The interpreter's mutable state: the environment heap (all frames ever
allocated, indexed by allocation order), the instance heap, the current
environment (`Interpreter::environment`), and everything printed so far. -/
structure St where
  envs : List Environment
  insts : List InstanceObject
  cur : Nat
  output : List String
deriving Repr

/-- Exceptions flowing through evaluation: C++ `std::runtime_error`
carrying a message, the `ReturnException` control-flow signal, fuel
exhaustion of the model, and `stuck` for states the C++ program cannot
reach (dangling heap references). -/
inductive Exc where
  | rterr (msg : String)
  | ret (v : Value)
  | fuel
  | stuck
deriving Repr

/-! ### `Value::isTruthy` and `Interpreter::isEqual` (tree-walker) -/

/-- `Value::isTruthy`: null is false, booleans are themselves, a number is
true iff it differs from zero, a string is true iff non-empty, and
objects, arrays and functions are truthy. -/
def Value.isTruthy : Value → Bool
  | .vnull => false
  | .vbool b => b
  | .vnum n => n != 0
  | .vstr s => !s.isEmpty
  | _ => true

/-- Tag predicates of `struct Value` (the `isX` helpers). -/
def Value.isNull : Value → Bool | .vnull => true | _ => false

/-- `Value::isNumber`. -/
def Value.isNumber : Value → Bool | .vnum _ => true | _ => false

/-- `Value::isString`. -/
def Value.isString : Value → Bool | .vstr _ => true | _ => false

/-- `Value::isBool`. -/
def Value.isBool : Value → Bool | .vbool _ => true | _ => false

/-- `Value::isArray`. -/
def Value.isArray : Value → Bool | .varr _ => true | _ => false

/-- `Value::isCallable`. -/
def Value.isCallable : Value → Bool | .vcallable _ => true | _ => false

/-- `Value::isInstance`. -/
def Value.isInstance : Value → Bool | .vinstance _ => true | _ => false

/-- `Interpreter::isEqual` of the tree-walker: both null → true; one null →
false; numbers, strings and booleans compare by value when tags agree;
every other combination — including two arrays, two callables or two
instances — falls through to `false`. -/
def Interpreter.isEqual (a b : Value) : Bool :=
  match a, b with
  | .vnull, .vnull => true
  | .vnull, _ => false
  | _, .vnull => false
  | .vnum x, .vnum y => x == y
  | .vstr x, .vstr y => x == y
  | .vbool x, .vbool y => x == y
  | _, _ => false

/-! ### `Value::toString` (tree-walker)

`std::to_string(double)` prints with six fixed fractional digits; we model
that rendering on `ℚ` (`fixed6`).  Integer-valued numbers take the
`std::to_string(static_cast<int>(num))` branch instead. -/

/-- Left-pad a digit string with zeros to the given width. -/
def padZeros (s : String) (n : Nat) : String :=
  String.mk (List.replicate (n - s.length) '0') ++ s

/-- `static_cast<int>` on a double: truncation toward zero. -/
def truncInt (q : ℚ) : Int :=
  if q < 0 then -(Int.floor (-q)) else Int.floor q

/-- Model of `std::to_string(double)`: sign, integer part, and exactly six
fractional digits with rounding, e.g. `fixed6 (5/2) = "2.500000"`. -/
def fixed6 (q : ℚ) : String :=
  let a : ℚ := |q|
  let m : Int := Int.floor (a * 1000000 + 1/2)
  let sign := if q < 0 then "-" else ""
  sign ++ toString (m / 1000000) ++ "." ++ padZeros (toString (m % 1000000)) 6

/-- `CallableObject::toString`: `<fn name>` for functions, `<class name>`
for classes. -/
def Callable.toString : Callable → String
  | .function f => "<fn " ++ f.name.lexeme ++ ">"
  | .classObj c => "<class " ++ c.name ++ ">"

mutual

/-- `Value::toString`.  Null → "null"; an integer-valued number prints via
`std::to_string(static_cast<int>(num))`, any other number via
`std::to_string(double)` (six fixed decimals); strings print raw; booleans
print "true"/"false"; arrays print `[`, the comma-separated element
displays, `]`; callables and instances delegate to their own `toString`
(`<ClassName instance>` for instances).  The instance heap is passed in to
follow the `shared_ptr<InstanceObject>`; recursion through array elements
is fuel-bounded to stay structural. -/
def Value.toString (fuel : Nat) (insts : List InstanceObject) : Value → String
  | .vnull => "null"
  | .vnum q => if (Int.floor q : ℚ) = q then Int.repr (truncInt q) else fixed6 q
  | .vstr s => s
  | .vbool b => if b then "true" else "false"
  | .varr es =>
      match fuel with
      | fuel' + 1 => "[" ++ Value.toStringElems fuel' insts es ++ "]"
      | 0 => "[fuel]"
  | .vcallable c => c.toString
  | .vinstance id =>
      match insts[id]? with
      | some i => "<" ++ i.klass.name ++ " instance>"
      | none => "unknown"

/-- The element loop of `Value::toString` for arrays: element displays
joined by `", "`. -/
def Value.toStringElems (fuel : Nat) (insts : List InstanceObject) : List Value → String
  | [] => ""
  | [v] => Value.toString fuel insts v
  | v :: rest => Value.toString fuel insts v ++ ", " ++ Value.toStringElems fuel insts rest

end

/-! ## The visitor interpreter's `RuntimeValue` (`runtime.hpp`, `interpreter.cpp`)

There the variant holds arrays behind `std::shared_ptr<std::vector<RuntimeValue>>`
("shared for ref semantics"); callables and instances are shared pointers
too.  For the functions embedded here only the tags and the scalar payloads
matter, so pointers are heap indices. -/

/-- The `RuntimeValue` variant of `runtime.hpp` (alternative order:
monostate, double, bool, string, array, callable, instance). -/
inductive RV where
  | rnull
  | rnum (n : ℚ)
  | rbool (b : Bool)
  | rstr (s : String)
  | rarrRef (id : Nat)
  | rcallRef (id : Nat)
  | rinstRef (id : Nat)
deriving DecidableEq, Repr

/-- `std::variant::index()` for `RuntimeValue`. -/
def RV.idx : RV → Nat
  | .rnull => 0
  | .rnum _ => 1
  | .rbool _ => 2
  | .rstr _ => 3
  | .rarrRef _ => 4
  | .rcallRef _ => 5
  | .rinstRef _ => 6

/-- `Interpreter::isTruthy` of the visitor interpreter (`interpreter.cpp`):
monostate is false, a boolean is itself, and *everything else* is true —
including the number zero and the empty string. -/
def RV.isTruthy : RV → Bool
  | .rnull => false
  | .rbool b => b
  | _ => true

/-- `Interpreter::isEqual` of the visitor interpreter: different variant
indices → false; monostate/double/bool/string by value; arrays, callables
and instances fall through to `false`. -/
def RV.isEqual (a b : RV) : Bool :=
  if a.idx != b.idx then false
  else match a, b with
    | .rnull, .rnull => true
    | .rnum x, .rnum y => x == y
    | .rbool x, .rbool y => x == y
    | .rstr x, .rstr y => x == y
    | _, _ => false

/-! ## Environment operations (tree-walker `Environment`) -/

/-- Association-list lookup, the model of `std::map::find`. -/
def lookupAssoc {α : Type} : List (String × α) → String → Option α
  | [], _ => none
  | (k, v) :: rest, name => if k = name then some v else lookupAssoc rest name

/-- Insert-or-overwrite, the model of `map[key] = value`. -/
def upsertAssoc {α : Type} : List (String × α) → String → α → List (String × α)
  | [], name, v => [(name, v)]
  | (k, w) :: rest, name, v =>
      if k = name then (name, v) :: rest else (k, w) :: upsertAssoc rest name v

/-- `Environment::get`: search the current frame, then the parents; a miss
at the root raises "Undefined variable 'name'.".  The walk up the parent
chain is fuel-bounded (unbounded recursion in the source; interpreter-built
chains are always acyclic). -/
def envGetVal : Nat → List Environment → Nat → String → Except Exc Value
  | 0, _, _, _ => .error .fuel
  | fuel + 1, envs, id, name =>
      match envs[id]? with
      | none => .error .stuck
      | some env =>
          match lookupAssoc env.values name with
          | some v => .ok v
          | none =>
              match env.parent with
              | some p => envGetVal fuel envs p name
              | none => .error (.rterr ("Undefined variable '" ++ name ++ "'."))

/-- `Environment::assign`: same search as `get`; overwrites in the frame
that owns the name, or raises "Undefined variable 'name'.". -/
def envAssign : Nat → List Environment → Nat → String → Value → Except Exc (List Environment)
  | 0, _, _, _, _ => .error .fuel
  | fuel + 1, envs, id, name, v =>
      match envs[id]? with
      | none => .error .stuck
      | some env =>
          match lookupAssoc env.values name with
          | some _ => .ok (envs.set id { env with values := upsertAssoc env.values name v })
          | none =>
              match env.parent with
              | some p => envAssign fuel envs p name v
              | none => .error (.rterr ("Undefined variable '" ++ name ++ "'."))

/-- `Environment::exists`: whether the name is reachable in the chain. -/
def envExists : Nat → List Environment → Nat → String → Bool
  | 0, _, _, _ => false
  | fuel + 1, envs, id, name =>
      match envs[id]? with
      | none => false
      | some env =>
          match lookupAssoc env.values name with
          | some _ => true
          | none =>
              match env.parent with
              | some p => envExists fuel envs p name
              | none => false

/-- `Environment::define` on the frame with the given id: insert or
overwrite in that frame only. -/
def envDefine (envs : List Environment) (id : Nat) (name : String) (v : Value) :
    List Environment :=
  match envs[id]? with
  | some env => envs.set id { env with values := upsertAssoc env.values name v }
  | none => envs

/-! ## Method lookup and arity -/

/-- `ClassObject::findMethod`: check the class's own method table; if
absent and a superclass exists, recurse into the superclass; else none. -/
def ClassObject.findMethod : ClassObject → String → Option FunctionObject
  | .mk _ none ms, name => lookupAssoc ms name
  | .mk _ (some s) ms, name =>
      match lookupAssoc ms name with
      | some f => some f
      | none => ClassObject.findMethod s name

/-- `arity()`: a function's parameter count; for a class the constructor's
parameter count if a `constructor` method is found, else 0. -/
def Callable.arity : Callable → Nat
  | .function f => f.params.length
  | .classObj c =>
      match c.findMethod "constructor" with
      | some ctor => ctor.params.length
      | none => 0

/-- `InstanceObject::get`: fields first, then methods via the class chain,
else "Undefined property 'name'.".  The function reads the instance and
never writes to it. -/
def InstanceObject.get (inst : InstanceObject) (name : String) : Except Exc Value :=
  match lookupAssoc inst.fields name with
  | some v => .ok v
  | none =>
      match inst.klass.findMethod name with
      | some m => .ok (.vcallable (.function m))
      | none => .error (.rterr ("Undefined property '" ++ name ++ "'."))

/-! ## Literals -/

/-- Accumulate leading decimal digits, stopping at the first non-digit
(the digit-consuming core of `std::stoi` / `std::stod`). -/
def digitsVal : List Char → Nat → Nat
  | [], acc => acc
  | c :: rest, acc => if c.isDigit then digitsVal rest (10 * acc + (c.toNat - 48)) else acc

/-- `std::stoi` on the token lexemes the lexer produces (digit runs,
modelled with an optional leading minus). -/
def stoiModel (s : String) : Int :=
  match s.toList with
  | '-' :: rest => -((digitsVal rest 0 : Nat) : Int)
  | l => ((digitsVal l 0 : Nat) : Int)

/-- `std::stod` on FLOAT lexemes (`digits.digits`). -/
def stodModel (s : String) : ℚ :=
  let l := s.toList
  let ip := digitsVal (l.takeWhile Char.isDigit) 0
  let frac : ℚ :=
    match l.dropWhile Char.isDigit with
    | '.' :: rest =>
        let ds := rest.takeWhile Char.isDigit
        (digitsVal ds 0 : ℚ) / ((10 : ℚ) ^ ds.length)
    | _ => 0
  (ip : ℚ) + frac

/-- `Interpreter::evaluateLiteral`: INTEGER via `std::stoi`, FLOAT via
`std::stod` (both into the single numeric kind), STRING into a string,
TRUE/FALSE into booleans, anything else null. -/
def evaluateLiteral (t : Token) : Value :=
  match t.type with
  | .TOK_INTEGER => .vnum ((stoiModel t.lexeme : Int) : ℚ)
  | .TOK_FLOAT => .vnum (stodModel t.lexeme)
  | .TOK_STRING => .vstr t.lexeme
  | .TOK_TRUE => .vbool true
  | .TOK_FALSE => .vbool false
  | _ => .vnull

/-- The parameter-binding loop shared by `FunctionObject::call` (binds
`params[i] := args[i]`, counts equal by the caller's arity check) and
`ClassObject::call` (binds only while both an argument and a parameter
exist at the index). -/
def bindLoop (init : List (String × Value)) (params : List Token) (args : List Value) :
    List (String × Value) :=
  (params.zip args).foldl (fun acc pa => upsertAssoc acc pa.1.lexeme pa.2) init

/-! ## The tree-walking evaluator

A mutual, fuel-bounded translation of the `Interpreter` member functions
plus `FunctionObject::call` / `ClassObject::call`.  Every function takes
the fuel first and passes one unit less to each callee, so the whole block
is structurally recursive and kernel-computable.  A pair
`(state, Except ...)` is returned so that heap effects survive thrown
exceptions, as they do with the C++ `shared_ptr` heaps. -/

mutual

/-- `Interpreter::evaluate`: dispatch on the expression node. -/
def evaluate : Nat → Expr → St → St × Except Exc Value
  | 0, _, st => (st, .error .fuel)
  | fuel + 1, e, st =>
      match e with
      | .literal t => (st, .ok (evaluateLiteral t))
      | .var n => (st, envGetVal fuel st.envs st.cur n.lexeme)
      | .assign t v => evaluateAssign fuel t v st
      | .binary l op r => evaluateBinary fuel l op r st
      | .call c a => evaluateCall fuel c a st
      | .get o n => evaluateGet fuel o n st
      | .arrayAccess a i => evaluateArrayAccess fuel a i st
      | .arrayLit es => evaluateArrayLit fuel es st
      | .newExpr c a => evaluateNew fuel c a st

/-- `Interpreter::evaluateAssign`: evaluate the right-hand side once, then
dispatch on the target shape (variable / property / array element); the
expression's value is the assigned value. -/
def evaluateAssign : Nat → Expr → Expr → St → St × Except Exc Value
  | 0, _, _, st => (st, .error .fuel)
  | fuel + 1, target, valueE, st =>
      match evaluate fuel valueE st with
      | (st1, .error e) => (st1, .error e)
      | (st1, .ok v) =>
          match target with
          | .var nt =>
              -- implicit declaration: define when the name exists nowhere
              if envExists fuel st1.envs st1.cur nt.lexeme then
                match envAssign fuel st1.envs st1.cur nt.lexeme v with
                | .ok envs' => ({ st1 with envs := envs' }, .ok v)
                | .error e => (st1, .error e)
              else
                ({ st1 with envs := envDefine st1.envs st1.cur nt.lexeme v }, .ok v)
          | .get objE nameT =>
              match evaluate fuel objE st1 with
              | (st2, .error e) => (st2, .error e)
              | (st2, .ok obj) =>
                  match obj with
                  | .vinstance id =>
                      match st2.insts[id]? with
                      | some inst =>
                          let inst' :=
                            { inst with fields := upsertAssoc inst.fields nameT.lexeme v }
                          ({ st2 with insts := st2.insts.set id inst' }, .ok v)
                      | none => (st2, .error .stuck)
                  | _ => (st2, .error (.rterr "Only instances have properties."))
          | .arrayAccess arrE idxE =>
              match evaluate fuel arrE st1 with
              | (st2, .error e) => (st2, .error e)
              | (st2, .ok av) =>
                  match av with
                  | .varr elems =>
                      match evaluate fuel idxE st2 with
                      | (st3, .error e) => (st3, .error e)
                      | (st3, .ok iv) =>
                          match iv with
                          | .vnum q =>
                              let idx : Int := truncInt q
                              if idx < 0 ∨ (elems.length : Int) ≤ idx then
                                (st3, .error (.rterr "Array index out of bounds."))
                              else
                                -- `auto& arr = std::get<...>(arrayVal.data)` aliases the
                                -- local copy produced by evaluating the array expression,
                                -- so the write below lands in that temporary and is
                                -- dropped when it goes out of scope
                                let _updated := elems.set idx.toNat v
                                (st3, .ok v)
                          | _ => (st3, .error (.rterr "Array index must be a number."))
                  | _ => (st2, .error (.rterr "Can only index arrays."))
          | _ => (st1, .ok v)

/-- `Interpreter::evaluateBinary`: evaluate left then right, then switch on
the operator token. -/
def evaluateBinary : Nat → Expr → Token → Expr → St → St × Except Exc Value
  | 0, _, _, _, st => (st, .error .fuel)
  | fuel + 1, l, op, r, st =>
      match evaluate fuel l st with
      | (st1, .error e) => (st1, .error e)
      | (st1, .ok lv) =>
          match evaluate fuel r st1 with
          | (st2, .error e) => (st2, .error e)
          | (st2, .ok rv) =>
              match op.type with
              | .TOK_PLUS =>
                  match lv, rv with
                  | .vnum x, .vnum y => (st2, .ok (.vnum (x + y)))
                  | .vstr x, .vstr y => (st2, .ok (.vstr (x ++ y)))
                  | _, _ => (st2, .error (.rterr "Operands must be two numbers or two strings."))
              | .TOK_MINUS =>
                  match lv, rv with
                  | .vnum x, .vnum y => (st2, .ok (.vnum (x - y)))
                  | _, _ => (st2, .error (.rterr "Operands must be numbers."))
              | .TOK_MULTIPLY =>
                  match lv, rv with
                  | .vnum x, .vnum y => (st2, .ok (.vnum (x * y)))
                  | _, _ => (st2, .error (.rterr "Operands must be numbers."))
              | .TOK_DIVIDE =>
                  match lv, rv with
                  | .vnum x, .vnum y =>
                      if y = 0 then (st2, .error (.rterr "Division by zero."))
                      else (st2, .ok (.vnum (x / y)))
                  | _, _ => (st2, .error (.rterr "Operands must be numbers."))
              | .TOK_EQUAL => (st2, .ok (.vbool (Interpreter.isEqual lv rv)))
              | .TOK_GREATER_THAN =>
                  match lv, rv with
                  | .vnum x, .vnum y => (st2, .ok (.vbool (y < x)))
                  | _, _ => (st2, .error (.rterr "Operands must be numbers."))
              | .TOK_GT_OR_EQ =>
                  match lv, rv with
                  | .vnum x, .vnum y => (st2, .ok (.vbool (y ≤ x)))
                  | _, _ => (st2, .error (.rterr "Operands must be numbers."))
              | .TOK_LESS_THAN =>
                  match lv, rv with
                  | .vnum x, .vnum y => (st2, .ok (.vbool (x < y)))
                  | _, _ => (st2, .error (.rterr "Operands must be numbers."))
              | .TOK_LT_OR_EQ =>
                  match lv, rv with
                  | .vnum x, .vnum y => (st2, .ok (.vbool (x ≤ y)))
                  | _, _ => (st2, .error (.rterr "Operands must be numbers."))
              | .TOK_IN =>
                  match rv with
                  | .varr elems => (st2, .ok (.vbool (elems.any (Interpreter.isEqual lv))))
                  | _ => (st2, .error (.rterr "'IN' operator requires an array on the right."))
              | _ => (st2, .error (.rterr "Unknown binary operator."))

/-- Left-to-right evaluation of an argument (or array-element) list. -/
def evalArgs : Nat → List Expr → St → St × Except Exc (List Value)
  | 0, _, st => (st, .error .fuel)
  | _ + 1, [], st => (st, .ok [])
  | fuel + 1, e :: rest, st =>
      match evaluate fuel e st with
      | (st1, .error err) => (st1, .error err)
      | (st1, .ok v) =>
          match evalArgs fuel rest st1 with
          | (st2, .error err) => (st2, .error err)
          | (st2, .ok vs) => (st2, .ok (v :: vs))

/-- `Interpreter::evaluateCall`: evaluate the callee, evaluate the
arguments in order, require a callable, require the argument count to
equal the callable's arity ("Expected N arguments but got M."), then
invoke. -/
def evaluateCall : Nat → Expr → List Expr → St → St × Except Exc Value
  | 0, _, _, st => (st, .error .fuel)
  | fuel + 1, calleeE, argsE, st =>
      match evaluate fuel calleeE st with
      | (st1, .error e) => (st1, .error e)
      | (st1, .ok callee) =>
          match evalArgs fuel argsE st1 with
          | (st2, .error e) => (st2, .error e)
          | (st2, .ok args) =>
              match callee with
              | .vcallable c =>
                  if args.length ≠ c.arity then
                    (st2, .error (.rterr ("Expected " ++ Nat.repr c.arity ++
                      " arguments but got " ++ Nat.repr args.length ++ ".")))
                  else
                    match c with
                    | .function f => FunctionObject.call fuel f args st2
                    | .classObj k => ClassObject.call fuel k args st2
              | _ => (st2, .error (.rterr "Can only call functions and classes."))

/-- `Interpreter::evaluateGet`: evaluate the object, require an instance
("Only instances have properties."), then `InstanceObject::get`. -/
def evaluateGet : Nat → Expr → Token → St → St × Except Exc Value
  | 0, _, _, st => (st, .error .fuel)
  | fuel + 1, objE, nameT, st =>
      match evaluate fuel objE st with
      | (st1, .error e) => (st1, .error e)
      | (st1, .ok obj) =>
          match obj with
          | .vinstance id =>
              match st1.insts[id]? with
              | some inst =>
                  match inst.get nameT.lexeme with
                  | .ok w => (st1, .ok w)
                  | .error e => (st1, .error e)
              | none => (st1, .error .stuck)
          | _ => (st1, .error (.rterr "Only instances have properties."))

/-- `Interpreter::evaluateArrayAccess`: evaluate array and index, require
an array and a number, truncate the index, bounds-check, return the
element. -/
def evaluateArrayAccess : Nat → Expr → Expr → St → St × Except Exc Value
  | 0, _, _, st => (st, .error .fuel)
  | fuel + 1, arrE, idxE, st =>
      match evaluate fuel arrE st with
      | (st1, .error e) => (st1, .error e)
      | (st1, .ok av) =>
          match evaluate fuel idxE st1 with
          | (st2, .error e) => (st2, .error e)
          | (st2, .ok iv) =>
              match av with
              | .varr elems =>
                  match iv with
                  | .vnum q =>
                      let idx : Int := truncInt q
                      if idx < 0 ∨ (elems.length : Int) ≤ idx then
                        (st2, .error (.rterr "Array index out of bounds."))
                      else
                        (st2, .ok (elems.getD idx.toNat .vnull))
                  | _ => (st2, .error (.rterr "Array index must be a number."))
              | _ => (st2, .error (.rterr "Can only index arrays."))

/-- `Interpreter::evaluateArrayLit`: evaluate the elements left-to-right
into a fresh array value. -/
def evaluateArrayLit : Nat → List Expr → St → St × Except Exc Value
  | 0, _, st => (st, .error .fuel)
  | fuel + 1, es, st =>
      match evalArgs fuel es st with
      | (st1, .error e) => (st1, .error e)
      | (st1, .ok vs) => (st1, .ok (.varr vs))

/-- `Interpreter::evaluateNew`: look up the class name, require a
class-kind callable ("Can only instantiate classes."), evaluate the
arguments, and invoke `ClassObject::call` directly — with no
argument-count check. -/
def evaluateNew : Nat → Token → List Expr → St → St × Except Exc Value
  | 0, _, _, st => (st, .error .fuel)
  | fuel + 1, classT, argsE, st =>
      match envGetVal fuel st.envs st.cur classT.lexeme with
      | .error e => (st, .error e)
      | .ok cv =>
          match cv with
          | .vcallable (.classObj k) =>
              match evalArgs fuel argsE st with
              | (st1, .error e) => (st1, .error e)
              | (st1, .ok args) => ClassObject.call fuel k args st1
          | _ => (st, .error (.rterr "Can only instantiate classes."))

/-- `FunctionObject::call`: a fresh environment whose parent is the
captured closure, parameters bound to arguments, body run as a block; a
return signal is caught at this boundary, and a body that completes
normally yields null. -/
def FunctionObject.call : Nat → FunctionObject → List Value → St → St × Except Exc Value
  | 0, _, _, st => (st, .error .fuel)
  | fuel + 1, f, args, st =>
      let envId := st.envs.length
      let st1 := { st with envs := st.envs ++ [⟨bindLoop [] f.params args, some f.closure⟩] }
      match executeBlock fuel f.body envId st1 with
      | (st2, .ok _) => (st2, .ok .vnull)
      | (st2, .error (.ret v)) => (st2, .ok v)
      | (st2, .error e) => (st2, .error e)

/-- `ClassObject::call`: allocate a new instance of this class; if a
`constructor` method is found (class then superclass chain), run its body
in a fresh environment parented by the constructor's closure with `this`
bound to the instance and a parameter bound only while an argument exists
at its index; a constructor return value is ignored and the instance is
the result. -/
def ClassObject.call : Nat → ClassObject → List Value → St → St × Except Exc Value
  | 0, _, _, st => (st, .error .fuel)
  | fuel + 1, c, args, st =>
      let instId := st.insts.length
      let st1 := { st with insts := st.insts ++ [⟨c, []⟩] }
      match c.findMethod "constructor" with
      | none => (st1, .ok (.vinstance instId))
      | some ctor =>
          let envId := st1.envs.length
          let vals := bindLoop (upsertAssoc [] "this" (.vinstance instId)) ctor.params args
          let st2 := { st1 with envs := st1.envs ++ [⟨vals, some ctor.closure⟩] }
          match executeBlock fuel ctor.body envId st2 with
          | (st3, .ok _) => (st3, .ok (.vinstance instId))
          | (st3, .error (.ret _)) => (st3, .ok (.vinstance instId))
          | (st3, .error e) => (st3, .error e)

/-- `Interpreter::executeBlock`: switch to the given environment, run the
statements, and restore the previous environment on both the normal and
the exceptional path. -/
def executeBlock : Nat → List Stmt → Nat → St → St × Except Exc Unit
  | 0, _, _, st => (st, .error .fuel)
  | fuel + 1, stmts, envId, st =>
      let prev := st.cur
      match execStmts fuel stmts { st with cur := envId } with
      | (st1, .ok _) => ({ st1 with cur := prev }, .ok ())
      | (st1, .error e) => ({ st1 with cur := prev }, .error e)

/-- Sequential statement execution, stopping at the first exception. -/
def execStmts : Nat → List Stmt → St → St × Except Exc Unit
  | 0, _, st => (st, .error .fuel)
  | _ + 1, [], st => (st, .ok ())
  | fuel + 1, s :: rest, st =>
      match execute fuel s st with
      | (st1, .ok _) => execStmts fuel rest st1
      | (st1, .error e) => (st1, .error e)

/-- `Interpreter::execute`: dispatch on the statement node. -/
def execute : Nat → Stmt → St → St × Except Exc Unit
  | 0, _, st => (st, .error .fuel)
  | fuel + 1, s, st =>
      match s with
      | .expression e =>
          match evaluate fuel e st with
          | (st1, .ok _) => (st1, .ok ())
          | (st1, .error err) => (st1, .error err)
      | .print e =>
          match evaluate fuel e st with
          | (st1, .ok v) =>
              ({ st1 with output := st1.output ++ [Value.toString fuel st1.insts v] }, .ok ())
          | (st1, .error err) => (st1, .error err)
      | .ret oe =>
          match oe with
          | none => (st, .error (.ret .vnull))
          | some e =>
              match evaluate fuel e st with
              | (st1, .ok v) => (st1, .error (.ret v))
              | (st1, .error err) => (st1, .error err)
      | .ifStmt c tb eb =>
          match evaluate fuel c st with
          | (st1, .error err) => (st1, .error err)
          | (st1, .ok v) =>
              -- branches run in the current environment, no new frame
              if v.isTruthy then execStmts fuel tb st1 else execStmts fuel eb st1
      | .whileStmt c b => executeWhile fuel c b st
      | .function nt params body =>
          let f : FunctionObject := ⟨nt, params, body, st.cur⟩
          ({ st with envs := envDefine st.envs st.cur nt.lexeme (.vcallable (.function f)) },
           .ok ())
      | .classStmt nt supT methods => executeClass fuel nt supT methods st

/-- `Interpreter::executeWhileStmt`: re-evaluate the condition and run the
body while the condition is truthy. -/
def executeWhile : Nat → Expr → List Stmt → St → St × Except Exc Unit
  | 0, _, _, st => (st, .error .fuel)
  | fuel + 1, c, b, st =>
      match evaluate fuel c st with
      | (st1, .error err) => (st1, .error err)
      | (st1, .ok v) =>
          if v.isTruthy then
            match execStmts fuel b st1 with
            | (st2, .ok _) => executeWhile fuel c b st2
            | (st2, .error e) => (st2, .error e)
          else (st1, .ok ())

/-- `Interpreter::executeClassStmt`: resolve the optional superclass
("Superclass must be a class." unless it is a class-kind callable), build
the method environment (a child frame holding `super` when a superclass
exists, else the current frame), construct `FunctionObject`s for the
declared methods, and define the class in the current environment. -/
def executeClass : Nat → Token → Token → List Stmt → St → St × Except Exc Unit
  | 0, _, _, _, st => (st, .error .fuel)
  | fuel + 1, nt, supT, methods, st =>
      let resolveSup : Except Exc (Option ClassObject) :=
        if supT.type = .TOK_EOF then .ok none
        else
          match envGetVal fuel st.envs st.cur supT.lexeme with
          | .error e => .error e
          | .ok sv =>
              match sv with
              | .vcallable (.classObj sc) => .ok (some sc)
              | _ => .error (.rterr "Superclass must be a class.")
      match resolveSup with
      | .error e => (st, .error e)
      | .ok supOpt =>
          let (envs1, classEnvId) :=
            match supOpt with
            | some sc =>
                (st.envs ++
                   [(⟨upsertAssoc [] "super" (.vcallable (.classObj sc)), some st.cur⟩ :
                      Environment)],
                 st.envs.length)
            | none => (st.envs, st.cur)
          let methodTable :=
            methods.foldl (fun acc m =>
              match m with
              | .function mn mp mb =>
                  upsertAssoc acc mn.lexeme (⟨mn, mp, mb, classEnvId⟩ : FunctionObject)
              | _ => acc) ([] : List (String × FunctionObject))
          let klass : ClassObject := .mk nt.lexeme supOpt methodTable
          ({ st with
              envs := envDefine envs1 st.cur nt.lexeme (.vcallable (.classObj klass)) },
           .ok ())

end

/-- `Interpreter::interpret`: execute the statements against a fresh root
(global) environment.  The surrounding `try`/`catch` only forwards a
runtime error to the diagnostic reporter, so the produced output and the
final exception are what this returns. -/
def Interpreter.interpret (fuel : Nat) (stmts : List Stmt) : St × Except Exc Unit :=
  execStmts fuel stmts ⟨[⟨[], none⟩], [], 0, []⟩

/-! ## The Pratt expression parser (`errors.cpp` / `parser.hpp`)

`Parser::parseExpression` consumes a prefix token, dispatches to a prefix
handler, and then, while the context precedence is strictly below the
precedence of the next token, consumes that token and dispatches to an
infix handler.  `Parser::binary` parses its right-hand side at
`precedence + 1`; `Parser::assignment` parses its right side at
`PREC_NONE`.  `Parser::errorAt` forwards to the diagnostic reporter,
which throws — a parse error therefore aborts the whole expression. -/

/-- The `Precedence` enumerators of `parser.hpp`, with their values
(`PREC_NONE` through `PREC_PRIMARY` are consecutive from 0). -/
def PREC_NONE : Nat := 0

/-- `PREC_ASSIGNMENT` (the `=` level, lowest operator precedence). -/
def PREC_ASSIGNMENT : Nat := 1

/-- `PREC_EQUALITY` (`==`). -/
def PREC_EQUALITY : Nat := 2

/-- `PREC_COMPARISON` (`< > <= >=` and `IN`). -/
def PREC_COMPARISON : Nat := 3

/-- `PREC_TERM` (`+ -`). -/
def PREC_TERM : Nat := 4

/-- `PREC_FACTOR` (`* /`). -/
def PREC_FACTOR : Nat := 5

/-- `PREC_CALL` (`. () []`). -/
def PREC_CALL : Nat := 6

/-- `Parser::getPrecedence`. -/
def getPrecedence : TokenType → Nat
  | .TOK_ASSIGN => PREC_ASSIGNMENT
  | .TOK_EQUAL => PREC_EQUALITY
  | .TOK_LESS_THAN | .TOK_GREATER_THAN | .TOK_GT_OR_EQ | .TOK_LT_OR_EQ | .TOK_IN =>
      PREC_COMPARISON
  | .TOK_PLUS | .TOK_MINUS => PREC_TERM
  | .TOK_MULTIPLY | .TOK_DIVIDE => PREC_FACTOR
  | .TOK_DOT | .TOK_LPAREN | .TOK_LBRACKET => PREC_CALL
  | _ => PREC_NONE

/-- A thrown parser diagnostic (`Parser::errorAt` → `ErrorReporter::report`,
which throws): offending token and message. -/
structure PErr where
  tok : Token
  msg : String
deriving Repr

/-- The parser's cursor over the token vector. -/
structure ParserState where
  tokens : List Token
  current : Nat
deriving Repr

/-- Token used when peeking out of range (the vector always ends in EOF). -/
def eofTok : Token := ⟨.TOK_EOF, "", 0, 0, 0⟩

/-- `Parser::peek`. -/
def ParserState.peek (p : ParserState) : Token := p.tokens.getD p.current eofTok

/-- `Parser::previous`. -/
def ParserState.previous (p : ParserState) : Token := p.tokens.getD (p.current - 1) eofTok

/-- `Parser::isAtEnd`. -/
def ParserState.isAtEnd (p : ParserState) : Bool := p.peek.type = .TOK_EOF

/-- `Parser::advance`: step unless at end, return the consumed token. -/
def ParserState.advance (p : ParserState) : Token × ParserState :=
  let p' := if p.isAtEnd then p else { p with current := p.current + 1 }
  (p'.previous, p')

/-- `Parser::check`. -/
def ParserState.check (p : ParserState) (t : TokenType) : Bool :=
  if p.isAtEnd then false else p.peek.type = t

/-- `Parser::match`: conditionally consume. -/
def ParserState.matchTok (p : ParserState) (t : TokenType) : Bool × ParserState :=
  if p.check t then (true, (p.advance).2) else (false, p)

/-- `Parser::consume`: expected token or a thrown syntax error. -/
def ParserState.consume (p : ParserState) (t : TokenType) (msg : String) :
    Except PErr (Token × ParserState) :=
  if p.check t then .ok p.advance else .error ⟨p.peek, msg⟩

mutual

/-- `Parser::parseExpression`: prefix dispatch, then the infix loop. -/
def parseExpression : Nat → Nat → ParserState → Except PErr (Expr × ParserState)
  | 0, _, _ => .error ⟨eofTok, "fuel"⟩
  | fuel + 1, prec, pst =>
      let (prefixToken, p1) := pst.advance
      let prefixResult : Except PErr (Expr × ParserState) :=
        match prefixToken.type with
        | .TOK_IDENTIFIER => .ok (.var prefixToken, p1)
        | .TOK_INTEGER | .TOK_FLOAT | .TOK_STRING | .TOK_TRUE | .TOK_FALSE =>
            .ok (.literal prefixToken, p1)
        | .TOK_LPAREN =>
            -- Parser::grouping
            match parseExpression fuel PREC_NONE p1 with
            | .error e => .error e
            | .ok (e, p2) =>
                match p2.consume .TOK_RPAREN "Expected ')' after expression." with
                | .error err => .error err
                | .ok (_, p3) => .ok (e, p3)
        | .TOK_LBRACKET => arrayLiteralP fuel p1
        | .TOK_NEW => newObjectP fuel p1
        | .TOK_MINUS =>
            -- unary minus: Binary(Literal(0), '-', rhs parsed at PREC_CALL)
            match parseExpression fuel PREC_CALL p1 with
            | .error e => .error e
            | .ok (rhs, p2) =>
                .ok (.binary (.literal ⟨.TOK_INTEGER, "0", prefixToken.line, 0, 0⟩)
                       prefixToken rhs, p2)
        | _ => .error ⟨prefixToken, "Expected expression."⟩
      match prefixResult with
      | .error e => .error e
      | .ok (left, p2) => infixLoop fuel prec left p2

/-- The `while (precedence < getPrecedence(peek().type))` loop of
`Parser::parseExpression`. -/
def infixLoop : Nat → Nat → Expr → ParserState → Except PErr (Expr × ParserState)
  | 0, _, _, _ => .error ⟨eofTok, "fuel"⟩
  | fuel + 1, prec, left, pst =>
      if prec < getPrecedence pst.peek.type then
        let (infixToken, p1) := pst.advance
        match infixToken.type with
        | .TOK_PLUS | .TOK_MINUS | .TOK_MULTIPLY | .TOK_DIVIDE | .TOK_EQUAL
        | .TOK_GREATER_THAN | .TOK_GT_OR_EQ | .TOK_LESS_THAN | .TOK_LT_OR_EQ
        | .TOK_IN =>
            -- Parser::binary: right side parsed at getPrecedence(op) + 1
            match parseExpression fuel (getPrecedence infixToken.type + 1) p1 with
            | .error e => .error e
            | .ok (right, p2) => infixLoop fuel prec (.binary left infixToken right) p2
        | .TOK_LPAREN =>
            match callArgsP fuel p1 [] with
            | .error e => .error e
            | .ok (args, p2) => infixLoop fuel prec (.call left args) p2
        | .TOK_DOT =>
            match p1.consume .TOK_IDENTIFIER "Expected property name after '.'." with
            | .error e => .error e
            | .ok (name, p2) => infixLoop fuel prec (.get left name) p2
        | .TOK_LBRACKET =>
            match parseExpression fuel PREC_NONE p1 with
            | .error e => .error e
            | .ok (index, p2) =>
                match p2.consume .TOK_RBRACKET "Expected ']' after index." with
                | .error e => .error e
                | .ok (_, p3) => infixLoop fuel prec (.arrayAccess left index) p3
        | .TOK_ASSIGN =>
            -- Parser::assignment: right-associative, value parsed at PREC_NONE,
            -- then the target shape is validated
            match parseExpression fuel PREC_NONE p1 with
            | .error e => .error e
            | .ok (value, p2) =>
                match left with
                | .var _ | .get _ _ | .arrayAccess _ _ =>
                    infixLoop fuel prec (.assign left value) p2
                | _ => .error ⟨p2.previous, "Invalid assignment target."⟩
        | _ => .ok (left, p1)
      else .ok (left, pst)

/-- The comma-separated argument list of `Parser::call` / `Parser::newObject`,
terminated by `)`. -/
def callArgsP : Nat → ParserState → List Expr → Except PErr (List Expr × ParserState)
  | 0, _, _ => .error ⟨eofTok, "fuel"⟩
  | fuel + 1, pst, acc =>
      if pst.check .TOK_RPAREN then
        match pst.consume .TOK_RPAREN "Expected ')' after arguments." with
        | .error e => .error e
        | .ok (_, p1) => .ok (acc, p1)
      else
        match parseExpression fuel PREC_NONE pst with
        | .error e => .error e
        | .ok (arg, p1) =>
            let (isComma, p2) := p1.matchTok .TOK_COMMA
            if isComma then callArgsP fuel p2 (acc ++ [arg])
            else
              match p2.consume .TOK_RPAREN "Expected ')' after arguments." with
              | .error e => .error e
              | .ok (_, p3) => .ok (acc ++ [arg], p3)

/-- `Parser::arrayLiteral`: `[` already consumed; elements, then `]`. -/
def arrayLiteralP : Nat → ParserState → Except PErr (Expr × ParserState)
  | 0, _ => .error ⟨eofTok, "fuel"⟩
  | fuel + 1, pst =>
      if pst.check .TOK_RBRACKET then
        match pst.consume .TOK_RBRACKET "Expected ']' after array elements." with
        | .error e => .error e
        | .ok (_, p1) => .ok (.arrayLit [], p1)
      else
        match arrayElemsP fuel pst [] with
        | .error e => .error e
        | .ok (es, p1) =>
            match p1.consume .TOK_RBRACKET "Expected ']' after array elements." with
            | .error e => .error e
            | .ok (_, p2) => .ok (.arrayLit es, p2)

/-- The element loop of `Parser::arrayLiteral`. -/
def arrayElemsP : Nat → ParserState → List Expr → Except PErr (List Expr × ParserState)
  | 0, _, _ => .error ⟨eofTok, "fuel"⟩
  | fuel + 1, pst, acc =>
      match parseExpression fuel PREC_NONE pst with
      | .error e => .error e
      | .ok (el, p1) =>
          let (isComma, p2) := p1.matchTok .TOK_COMMA
          if isComma then arrayElemsP fuel p2 (acc ++ [el])
          else .ok (acc ++ [el], p2)

/-- `Parser::newObject`: class name, `(`, arguments, `)`. -/
def newObjectP : Nat → ParserState → Except PErr (Expr × ParserState)
  | 0, _ => .error ⟨eofTok, "fuel"⟩
  | fuel + 1, pst =>
      match pst.consume .TOK_IDENTIFIER "Expected class name after 'new'." with
      | .error e => .error e
      | .ok (className, p1) =>
          match p1.consume .TOK_LPAREN "Expected '(' after class name." with
          | .error e => .error e
          | .ok (_, p2) =>
              match callArgsP fuel p2 [] with
              | .error e => .error e
              | .ok (args, p3) => .ok (.newExpr className args, p3)

end

/-! ## The lexer (`lexer.cpp`)

The current lexer tracks, besides the running `current`/`line`/`column`,
the token-start fields `start`, `startLine` and `startColumn`, snapshotted
by `scanTokens` before each `scanToken`.  `Lexer::reportError` recomputes
the error column by walking back from `start` to the beginning of its
line, reports at `startLine` (the line where the token started, not the
line reached after consuming embedded newlines), and the reporter throws,
terminating the scan. -/

/-- Diagnostic kinds (`enum class ErrorType`). -/
inductive ErrType where
  | Syntax | Type | Runtime
deriving DecidableEq, Repr

/-- A reported lexical diagnostic: kind, line, column, message, span length
(the arguments `Lexer::reportError` hands to `ErrorReporter::report`). -/
structure LexError where
  etype : ErrType
  line : Nat
  column : Nat
  msg : String
  length : Nat
deriving DecidableEq, Repr

/-- The lexer's state (`class Lexer` fields). -/
structure LexSt where
  source : List Char
  tokens : List Token
  start : Nat
  current : Nat
  line : Nat
  startLine : Nat
  startColumn : Nat
  column : Nat
deriving Repr

/-- Scan outcome: finished token list state, a thrown diagnostic, or the
model's fuel running out. -/
inductive LexOut where
  | ok (st : LexSt)
  | err (e : LexError)
  | fuelOut
deriving Repr

/-- `Lexer::isAtEnd`. -/
def LexSt.atEnd (st : LexSt) : Bool := st.source.length ≤ st.current

/-- `Lexer::peek`: current character, `'\0'` at end. -/
def LexSt.peekc (st : LexSt) : Char :=
  if st.atEnd then '\x00' else st.source.getD st.current '\x00'

/-- `Lexer::advance`: consume a character; a newline resets the column. -/
def LexSt.advancec (st : LexSt) : Char × LexSt :=
  let c := st.source.getD st.current '\x00'
  (c, { st with current := st.current + 1,
                column := if c = '\n' then 0 else st.column + 1 })

/-- `Lexer::match`: conditionally consume an expected character (the
column counter is not touched, exactly as in the source). -/
def LexSt.matchc (st : LexSt) (expected : Char) : Bool × LexSt :=
  if st.atEnd then (false, st)
  else if st.source.getD st.current '\x00' ≠ expected then (false, st)
  else (true, { st with current := st.current + 1 })

/-- `source.substr(a, b - a)`: the characters in `[a, b)`. -/
def sliceStr (source : List Char) (a b : Nat) : String :=
  String.mk ((source.drop a).take (b - a))

/-- `Lexer::addToken(type)`: lexeme is the exact source slice; the token
records the running `line`, the snapshotted `startColumn`, and the span
length. -/
def LexSt.addToken (st : LexSt) (t : TokenType) : LexSt :=
  { st with tokens := st.tokens ++
      [⟨t, sliceStr st.source st.start st.current, st.line, st.startColumn,
        st.current - st.start⟩] }

/-- `Lexer::addToken(type, literal)`: same, with a provided lexeme. -/
def LexSt.addTokenLit (st : LexSt) (t : TokenType) (lit : String) : LexSt :=
  { st with tokens := st.tokens ++
      [⟨t, lit, st.line, st.startColumn, st.current - st.start⟩] }

/-- The walk-back loop of `Lexer::reportError`: the index of the first
character of the line containing position `start` (0, or just after the
previous newline). -/
def lineStartOf (source : List Char) : Nat → Nat
  | 0 => 0
  | i + 1 => if source.getD i '\x00' = '\n' then i + 1 else lineStartOf source i

/-- `Lexer::reportError`: column = `start` minus its line's start; the
span is `current - start` (at least 1), truncated at the first newline
inside the token; the error is located at `startLine`. -/
def reportErrorModel (st : LexSt) (etype : ErrType) (msg : String) : LexError :=
  let lineStart := lineStartOf st.source st.start
  let errorColumn := st.start - lineStart
  let t0 := st.current - st.start
  let t1 := if t0 = 0 then 1 else t0
  let tokenLength :=
    match ((st.source.drop st.start).take (st.current - st.start)).findIdx? (· = '\n') with
    | some k => k
    | none => t1
  ⟨etype, st.startLine, errorColumn, msg, tokenLength⟩

/-- The keyword table built in the `Lexer` constructor, including the
mixed-case aliases. -/
def keywordLookup (s : String) : Option TokenType :=
  if s = "CLASS" then some .TOK_CLASS
  else if s = "ATTRIBUTES" then some .TOK_ATTRIBUTES
  else if s = "METHODS" then some .TOK_METHODS
  else if s = "FUNCTION" then some .TOK_FUNCTION
  else if s = "RETURN" then some .TOK_RETURN
  else if s = "END" then some .TOK_END
  else if s = "NEW" then some .TOK_NEW
  else if s = "PRINT" then some .TOK_PRINT
  else if s = "WHILE" then some .TOK_WHILE
  else if s = "IF" then some .TOK_IF
  else if s = "THEN" then some .TOK_THEN
  else if s = "ELSE" then some .TOK_ELSE
  else if s = "IN" then some .TOK_IN
  else if s = "FOR" then some .TOK_FOR
  else if s = "TRUE" then some .TOK_TRUE
  else if s = "FALSE" then some .TOK_FALSE
  else if s = "Attributes" then some .TOK_ATTRIBUTES
  else if s = "Methods" then some .TOK_METHODS
  else if s = "True" then some .TOK_TRUE
  else if s = "False" then some .TOK_FALSE
  else if s = "new" then some .TOK_NEW
  else none

mutual

/-- `Lexer::string`: consume characters (counting newlines) until the
closing delimiter or end of input; at end of input, report "Unterminated
string." via `reportError`; otherwise consume the closing quote and emit
a STRING token whose lexeme is the body with the quotes stripped. -/
def lexString : Nat → Char → LexSt → LexOut
  | 0, _, _ => .fuelOut
  | fuel + 1, q, st =>
      if st.peekc ≠ q ∧ ¬ st.atEnd then
        let st1 := if st.peekc = '\n' then { st with line := st.line + 1 } else st
        lexString fuel q (st1.advancec).2
      else if st.atEnd then
        .err (reportErrorModel st .Syntax "Unterminated string.")
      else
        let st1 := (st.advancec).2
        .ok (st1.addTokenLit .TOK_STRING (sliceStr st1.source (st1.start + 1) (st1.current - 1)))

/-- `Lexer::number`: digits, optionally `.` plus digits (FLOAT); a digit
run followed directly by a letter reports "Identifier starts with
number.". -/
def lexNumber : Nat → LexSt → LexOut
  | 0, _ => .fuelOut
  | fuel + 1, st =>
      if st.peekc.isDigit then lexNumber fuel (st.advancec).2
      else
        if st.peekc = '.' ∧ (st.source.getD (st.current + 1) '\x00').isDigit then
          lexNumberFrac fuel (st.advancec).2
        else
          if ¬ st.peekc.isAlpha then .ok (st.addToken .TOK_INTEGER)
          else .err (reportErrorModel st .Syntax "Identifier starts with number.")

/-- The fractional-digit loop of `Lexer::number`. -/
def lexNumberFrac : Nat → LexSt → LexOut
  | 0, _ => .fuelOut
  | fuel + 1, st =>
      if st.peekc.isDigit then lexNumberFrac fuel (st.advancec).2
      else .ok (st.addToken .TOK_FLOAT)

/-- `Lexer::identifier`: alphanumerics and underscores, then keyword
reclassification. -/
def lexIdentifier : Nat → LexSt → LexOut
  | 0, _ => .fuelOut
  | fuel + 1, st =>
      if st.peekc.isAlphanum ∨ st.peekc = '_' then lexIdentifier fuel (st.advancec).2
      else
        let text := sliceStr st.source st.start st.current
        match keywordLookup text with
        | some t => .ok (st.addToken t)
        | none => .ok (st.addToken .TOK_IDENTIFIER)

/-- The comment-skipping loop (`//` and `#` comments run to, but do not
consume, the next newline). -/
def skipComment : Nat → LexSt → LexOut
  | 0, _ => .fuelOut
  | fuel + 1, st =>
      if st.peekc ≠ '\n' ∧ ¬ st.atEnd then skipComment fuel (st.advancec).2
      else .ok st

/-- `Lexer::scanToken`: consume one character and dispatch. -/
def scanToken : Nat → LexSt → LexOut
  | 0, _ => .fuelOut
  | fuel + 1, st =>
      let (c, st1) := st.advancec
      if c = '(' then .ok (st1.addToken .TOK_LPAREN)
      else if c = ')' then .ok (st1.addToken .TOK_RPAREN)
      else if c = '[' then .ok (st1.addToken .TOK_LBRACKET)
      else if c = ']' then .ok (st1.addToken .TOK_RBRACKET)
      else if c = ',' then .ok (st1.addToken .TOK_COMMA)
      else if c = '.' then .ok (st1.addToken .TOK_DOT)
      else if c = ':' then .ok (st1.addToken .TOK_COLON)
      else if c = '+' then .ok (st1.addToken .TOK_PLUS)
      else if c = '-' then .ok (st1.addToken .TOK_MINUS)
      else if c = '/' then
        let (isC, st2) := st1.matchc '/'
        if isC then skipComment fuel st2 else .ok (st2.addToken .TOK_DIVIDE)
      else if c = '*' then .ok (st1.addToken .TOK_MULTIPLY)
      else if c = '#' then skipComment fuel st1
      else if c = '=' then
        let (isEq, st2) := st1.matchc '='
        .ok (st2.addToken (if isEq then .TOK_EQUAL else .TOK_ASSIGN))
      else if c = '<' then
        let (isEq, st2) := st1.matchc '='
        .ok (st2.addToken (if isEq then .TOK_LT_OR_EQ else .TOK_LESS_THAN))
      else if c = '>' then
        let (isEq, st2) := st1.matchc '='
        .ok (st2.addToken (if isEq then .TOK_GT_OR_EQ else .TOK_GREATER_THAN))
      else if c = ' ' ∨ c = '\r' ∨ c = '\t' then .ok st1
      else if c = '\n' then .ok { st1 with line := st1.line + 1 }
      else if c = '"' then lexString fuel '"' st1
      else if c = '\'' then lexString fuel '\'' st1
      else if c.isDigit then lexNumber fuel st1
      else if c.isAlpha ∨ c = '_' then lexIdentifier fuel st1
      else .err (reportErrorModel st1 .Syntax
             ("Unexpected character '" ++ String.mk [c] ++ "'."))

/-- The `scanTokens` loop: snapshot `start`/`startLine`/`startColumn`,
scan one token, repeat; at end of input append the EOF token. -/
def scanLoop : Nat → LexSt → LexOut
  | 0, _ => .fuelOut
  | fuel + 1, st =>
      if ¬ st.atEnd then
        let st' := { st with start := st.current, startLine := st.line,
                             startColumn := st.column }
        match scanToken fuel st' with
        | .ok st2 => scanLoop fuel st2
        | .err e => .err e
        | .fuelOut => .fuelOut
      else
        .ok { st with tokens := st.tokens ++ [⟨.TOK_EOF, "", st.line, st.column, 0⟩] }

end

/-- `Lexer.scanTokens` from a fresh lexer: line 1, column 0. -/
def Lexer.scanTokens (fuel : Nat) (source : String) : LexOut :=
  scanLoop fuel ⟨source.toList, [], 0, 0, 1, 1, 0, 0⟩

/-! ## Helper lemmas -/

/-- The variant index of the tree-walker's `Value::ValueType`
(monostate, double, string, bool, array, callable, instance). -/
def Value.vidx : Value → Nat
  | .vnull => 0
  | .vnum _ => 1
  | .vstr _ => 2
  | .vbool _ => 3
  | .varr _ => 4
  | .vcallable _ => 5
  | .vinstance _ => 6

/-- Inserting a key that is not present appends. -/
lemma upsertAssoc_not_mem {α : Type} (l : List (String × α)) (k : String) (v : α)
    (h : k ∉ l.map Prod.fst) : upsertAssoc l k v = l ++ [(k, v)] := by
  induction l with
  | nil => rfl
  | cons hd tl ih =>
      simp only [List.map_cons, List.mem_cons] at h
      push_neg at h
      simp only [upsertAssoc, if_neg (Ne.symm h.1), List.cons_append, ih h.2]

/-- The parameter-binding loop with pairwise-fresh keys appends the
bindings in order. -/
lemma bindLoop_eq : ∀ (params : List Token) (args : List Value)
    (acc : List (String × Value)),
    (params.map Token.lexeme).Nodup →
    (∀ k ∈ params.map Token.lexeme, k ∉ acc.map Prod.fst) →
    bindLoop acc params args =
      acc ++ (params.zip args).map (fun pa => (pa.1.lexeme, pa.2)) := by
  intro params
  induction params with
  | nil => intro args acc _ _; simp [bindLoop]
  | cons p ps ih =>
      intro args acc hnd hfresh
      match args with
      | [] => simp [bindLoop]
      | a :: as =>
          simp only [List.map_cons, List.nodup_cons] at hnd
          have hp : p.lexeme ∉ acc.map Prod.fst := by
            exact hfresh p.lexeme (by simp)
          have step : bindLoop acc (p :: ps) (a :: as) =
              bindLoop (upsertAssoc acc p.lexeme a) ps as := by
            simp [bindLoop]
          rw [step, upsertAssoc_not_mem acc p.lexeme a hp]
          rw [ih as (acc ++ [(p.lexeme, a)]) hnd.2 ?_]
          · simp
          · intro k hk
            simp only [List.map_append, List.mem_append, not_or]
            refine ⟨fun hmem => (hfresh k (by simp [hk])) hmem, ?_⟩
            simp only [List.map_cons, List.map_nil, List.mem_singleton]
            intro hkp
            exact hnd.1 (hkp ▸ hk)

/-- `String.intercalate.go` pulls a leading prefix out. -/
lemma intercalate_go_pre (s : String) :
    ∀ (l : List String) (p q : String),
      String.intercalate.go (p ++ q) s l = p ++ String.intercalate.go q s l := by
  intro l
  induction l with
  | nil => intro p q; simp [String.intercalate.go]
  | cons x xs ih =>
      intro p q
      show String.intercalate.go (p ++ q ++ s ++ x) s xs =
        p ++ String.intercalate.go (q ++ s ++ x) s xs
      rw [show p ++ q ++ s ++ x = p ++ (q ++ s ++ x) by
        simp [String.append_assoc]]
      exact ih p (q ++ s ++ x)

/-- The array element loop of `Value::toString` joins element displays
with `", "`. -/
lemma toStringElems_intercalate (fuel : Nat) (insts : List InstanceObject) :
    ∀ es : List Value,
      Value.toStringElems fuel insts es =
        String.intercalate ", " (es.map (Value.toString fuel insts)) := by
  intro es
  match es with
  | [] => rfl
  | v :: rest =>
      induction rest generalizing v with
      | nil => rfl
      | cons w t ih =>
          show Value.toString fuel insts v ++ ", " ++
              Value.toStringElems fuel insts (w :: t) =
            String.intercalate.go (Value.toString fuel insts v) ", "
              ((w :: t).map (Value.toString fuel insts))

          rw [ih w]
          show Value.toString fuel insts v ++ ", " ++
              String.intercalate.go (Value.toString fuel insts w) ", "
                (t.map (Value.toString fuel insts)) = _
          show _ = String.intercalate.go
              (Value.toString fuel insts v ++ ", " ++ Value.toString fuel insts w) ", "
              (t.map (Value.toString fuel insts))
          rw [show Value.toString fuel insts v ++ ", " ++ Value.toString fuel insts w =
              (Value.toString fuel insts v ++ ", ") ++ Value.toString fuel insts w by
            simp [String.append_assoc]]
          rw [intercalate_go_pre]

/-- The span length `Lexer::reportError` computes when an unterminated
string has consumed the rest of the source (`current` has reached the end
of input). -/
def untermLen (st : LexSt) : Nat :=
  let t0 := st.source.length - st.start
  let t1 := if t0 = 0 then 1 else t0
  match ((st.source.drop st.start).take (st.source.length - st.start)).findIdx? (· = '\n') with
  | some k => k
  | none => t1

/-- `Lexer::string` with no closing delimiter ahead consumes everything,
then reports exactly one Syntax error "Unterminated string." whose line is
the snapshotted `startLine` and whose column is the offset of `start`
(the opening quote) within its line — regardless of how many newlines the
unterminated literal spans. -/
lemma lexString_no_close (q : Char) :
    ∀ (fuel : Nat) (st : LexSt),
      st.current ≤ st.source.length →
      st.source.length - st.current < fuel →
      (∀ j, st.current ≤ j → j < st.source.length → st.source.getD j '\x00' ≠ q) →
      lexString fuel q st =
        .err ⟨.Syntax, st.startLine, st.start - lineStartOf st.source st.start,
              "Unterminated string.", untermLen st⟩ := by
  intro fuel
  induction fuel with
  | zero => intro st h1 h2 h3; omega
  | succ n ih =>
      intro st h1 h2 h3
      by_cases hend : st.current < st.source.length
      · -- not at end: the current character is not the close, so consume it
        have hne : st.source.getD st.current '\x00' ≠ q :=
          h3 st.current le_rfl hend
        have hatEnd : st.atEnd = false := by
          simp [LexSt.atEnd]; omega
        have hpeek : st.peekc = st.source.getD st.current '\x00' := by
          simp [LexSt.peekc, hatEnd]
        have hcond : (st.peekc ≠ q ∧ ¬ st.atEnd) := by
          rw [hpeek, hatEnd]; exact ⟨hne, by simp⟩
        simp only [lexString, if_pos hcond]
        set st1 := if st.peekc = '\n' then { st with line := st.line + 1 } else st with hst1
        have hfields : st1.source = st.source ∧ st1.current = st.current ∧
            st1.start = st.start ∧ st1.startLine = st.startLine := by
          by_cases hnl : st.peekc = '\n' <;> simp [hst1, hnl]
        obtain ⟨hs1, hc1, hst1s, hsl1⟩ := hfields
        have := ih (st1.advancec).2 ?_ ?_ ?_
        · rw [this]
          simp [LexSt.advancec, hs1, hst1s, hsl1, untermLen]
        · simp [LexSt.advancec, hs1, hc1]; omega
        · simp [LexSt.advancec, hs1, hc1]; omega
        · intro j hj1 hj2
          simp only [LexSt.advancec, hs1, hc1] at hj1 hj2 ⊢
          exact h3 j (by omega) hj2
      · -- at end: report the error from the snapshotted token start
        have hc : st.current = st.source.length := by omega
        have hatEnd : st.atEnd = true := by simp [LexSt.atEnd]; omega
        have hcond : ¬ (st.peekc ≠ q ∧ ¬ st.atEnd) := by
          rw [hatEnd]; simp
        simp only [lexString, if_neg hcond, if_pos hatEnd]
        simp [reportErrorModel, untermLen, hc]

/-! ## Claim theorems -/

/-- C3 (amended): the truthiness table — Null falsy, Booleans themselves,
a Number falsy iff exactly zero, a String falsy iff empty, Arrays,
Callables and Instances always truthy — holds exactly for the
tree-walker's `Value::isTruthy`, which its IF/WHILE execution uses; the
visitor interpreter's `Interpreter::isTruthy` (used by its own
`visitIfStmt`/`visitWhileStmt`) instead treats every value other than Null
and the Boolean false as truthy, so zero Numbers and empty Strings are
truthy there. -/
theorem c3_truthiness :
    (Value.vnull.isTruthy = false)
    ∧ (∀ b : Bool, (Value.vbool b).isTruthy = b)
    ∧ (∀ q : ℚ, (Value.vnum q).isTruthy = (q != 0))
    ∧ (∀ s : String, (Value.vstr s).isTruthy = !s.isEmpty)
    ∧ (∀ es : List Value, (Value.varr es).isTruthy = true)
    ∧ (∀ c : Callable, (Value.vcallable c).isTruthy = true)
    ∧ (∀ i : Nat, (Value.vinstance i).isTruthy = true)
    ∧ (∀ v : RV, v.isTruthy = !(v == RV.rnull || v == RV.rbool false)) := by
  refine ⟨rfl, fun b => rfl, fun q => rfl, fun s => rfl,
    fun es => rfl, fun c => rfl, fun i => rfl, fun v => ?_⟩
  cases v with
  | rbool b => cases b <;> rfl
  | _ => simp [RV.isTruthy]

/-- C3 counterexample: in the visitor interpreter, the IF/WHILE condition
coercion `Interpreter::isTruthy` yields true for the Number 0 and for the
empty String, so "a Number is falsy iff it is exactly zero" and "a String
is falsy iff it is empty" fail on the program as stated. -/
theorem c3_truthiness_counterexample :
    RV.isTruthy (.rnum 0) = true ∧ RV.isTruthy (.rstr "") = true :=
  ⟨rfl, rfl⟩

/-- C4 (amended): `==` is deep value equality within the same tag for
Null, Numbers, Strings and Booleans, and false across different tags; but
arrays, instances and callables do **not** compare by identity — both
interpreters' `isEqual` fall through to false for them, even when the two
operands are the very same object, so `v == v` is false for every array,
callable or instance value.  `==` is reflexive on Numbers (the model has
no NaN), Strings, Booleans and Null, and on nothing else. -/
theorem c4_equality :
    (Interpreter.isEqual .vnull .vnull = true)
    ∧ (∀ x y : ℚ, Interpreter.isEqual (.vnum x) (.vnum y) = (x == y))
    ∧ (∀ x y : String, Interpreter.isEqual (.vstr x) (.vstr y) = (x == y))
    ∧ (∀ x y : Bool, Interpreter.isEqual (.vbool x) (.vbool y) = (x == y))
    ∧ (∀ a b : Value, a.vidx ≠ b.vidx → Interpreter.isEqual a b = false)
    ∧ (∀ a b : Value,
        a.isArray ∨ a.isCallable ∨ a.isInstance →
        Interpreter.isEqual a b = false)
    ∧ (∀ v : Value, v.isNull ∨ v.isNumber ∨ v.isString ∨ v.isBool →
        Interpreter.isEqual v v = true)
    ∧ (∀ a b : RV, a.idx ≠ b.idx → RV.isEqual a b = false)
    ∧ (∀ id : Nat, RV.isEqual (.rarrRef id) (.rarrRef id) = false
        ∧ RV.isEqual (.rcallRef id) (.rcallRef id) = false
        ∧ RV.isEqual (.rinstRef id) (.rinstRef id) = false)
    ∧ (∀ v : RV, v.idx ≤ 3 → RV.isEqual v v = true) := by
  refine ⟨rfl, fun x y => rfl, fun x y => rfl, fun x y => rfl,
    ?_, ?_, ?_, ?_, ?_, ?_⟩
  · intro a b h
    cases a <;> cases b <;> first
      | rfl
      | (exfalso; exact h rfl)
  · intro a b h
    cases a <;> simp [Value.isArray, Value.isCallable, Value.isInstance] at h <;>
      cases b <;> rfl
  · intro v h
    cases v <;>
      simp [Value.isNull, Value.isNumber, Value.isString, Value.isBool] at h <;>
      simp [Interpreter.isEqual]
  · intro a b h
    cases a <;> cases b <;> first
      | rfl
      | (exfalso; exact h rfl)
  · intro id
    refine ⟨rfl, rfl, rfl⟩
  · intro v h
    cases v <;> simp [RV.idx] at h <;> simp [RV.isEqual, RV.idx]

/-- C4 witness: the always-false conjunct applied at a concrete array
value. -/
theorem c4_equality_witness :
    Value.isArray (.varr [.vnum 1]) ∧
      Interpreter.isEqual (.varr [.vnum 1]) (.varr [.vnum 1]) = false :=
  ⟨rfl, c4_equality.2.2.2.2.2.1 (.varr [.vnum 1]) (.varr [.vnum 1]) (Or.inl rfl)⟩

/-- C4 counterexample: `v == v` on one and the same array value yields
false in both interpreters' `isEqual`, refuting "for every array,
instance, or callable value v, evaluating `v == v` yields true". -/
theorem c4_equality_counterexample :
    Interpreter.isEqual (.varr [.vnum 1]) (.varr [.vnum 1]) = false
    ∧ RV.isEqual (.rarrRef 0) (.rarrRef 0) = false :=
  ⟨rfl, rfl⟩

/-- C7 (amended): the tree-walker display form used by its PRINT
(`Value::toString`): Null → "null"; a Boolean → "true"/"false"; a String
prints raw; an Array prints `[`, the comma-separated element displays,
`]`; an integer-valued Number prints `std::to_string(static_cast<int>(n))`
— a plain decimal integer with no decimal point — but a non-integer
Number goes through `std::to_string(double)` and prints with six fixed
fractional digits (2.5 prints as "2.500000", not "2.5"). -/
theorem c7_display :
    (∀ fuel insts, Value.toString fuel insts .vnull = "null")
    ∧ (∀ fuel insts, Value.toString fuel insts (.vbool true) = "true"
        ∧ Value.toString fuel insts (.vbool false) = "false")
    ∧ (∀ fuel insts s, Value.toString fuel insts (.vstr s) = s)
    ∧ (∀ fuel insts (q : ℚ), (Int.floor q : ℚ) = q →
        Value.toString fuel insts (.vnum q) = Int.repr (truncInt q))
    ∧ (∀ fuel insts (q : ℚ), (Int.floor q : ℚ) ≠ q →
        Value.toString fuel insts (.vnum q) = fixed6 q)
    ∧ (∀ fuel insts (es : List Value),
        Value.toString (fuel + 1) insts (.varr es) =
          "[" ++ String.intercalate ", " (es.map (Value.toString fuel insts)) ++ "]") := by
  refine ⟨fun fuel insts => rfl, fun fuel insts => ⟨rfl, rfl⟩, fun fuel insts s => rfl,
    ?_, ?_, ?_⟩
  · intro fuel insts q h
    simp [Value.toString, h]
  · intro fuel insts q h
    simp [Value.toString, h]
  · intro fuel insts es
    show "[" ++ Value.toStringElems fuel insts es ++ "]" = _
    rw [toStringElems_intercalate]

/-- C7 witness: the integer-valued clause applied at 7 — it prints "7",
with no decimal point. -/
theorem c7_display_witness :
    ((Int.floor (7 : ℚ) : ℚ) = 7) ∧ Value.toString 1 [] (.vnum 7) = "7" :=
  ⟨by norm_num, by
    have h := c7_display.2.2.2.1 1 [] (7 : ℚ) (by norm_num)
    rw [h]; rfl⟩

/-- C7 counterexample: displaying the Number 2.5 produces "2.500000" —
`std::to_string(double)` keeps six fixed fractional digits — refuting
"2.5 prints as `2.5`, never `2.500000`". -/
theorem c7_display_counterexample :
    Value.toString 1 [] (.vnum (5 / 2)) = "2.500000" := by
  have ha : |(5 : ℚ) / 2| = 5 / 2 := by
    rw [abs_of_nonneg]; norm_num
  have h1 : ¬ ((Int.floor ((5 : ℚ) / 2) : ℚ) = (5 : ℚ) / 2) := by
    norm_num [Rat.floor_def]
  have h2 : (Int.floor (|(5 : ℚ) / 2| * 1000000 + 1 / 2) : Int) = 2500000 := by
    rw [ha, Int.floor_eq_iff]
    norm_num
  simp only [Value.toString, h1, if_false, fixed6, h2]
  norm_num
  rfl

/-! ### Concrete programs for the remaining claims -/

/-- An identifier token for test programs. -/
def idT (s : String) : Token := ⟨.TOK_IDENTIFIER, s, 1, 0, s.length⟩

/-- An integer-literal expression for test programs. -/
def intL (s : String) : Expr := .literal ⟨.TOK_INTEGER, s, 1, 0, s.length⟩

/-- The aliasing program of C1:
`a = [1,2,3]  b = a  b[1] = 99  b[0] = 9  PRINT(a[1])  PRINT(a)  PRINT(b)`. -/
def progC1 : List Stmt :=
  [ .expression (.assign (.var (idT "a")) (.arrayLit [intL "1", intL "2", intL "3"]))
  , .expression (.assign (.var (idT "b")) (.var (idT "a")))
  , .expression (.assign (.arrayAccess (.var (idT "b")) (intL "1")) (intL "99"))
  , .expression (.assign (.arrayAccess (.var (idT "b")) (intL "0")) (intL "9"))
  , .print (.arrayAccess (.var (idT "a")) (intL "1"))
  , .print (.var (idT "a"))
  , .print (.var (idT "b")) ]

/-- C1: running the aliasing program on the tree-walker prints `2`,
`[1, 2, 3]`, `[1, 2, 3]` — not `99` and `[9, 2, 3]`.  The tree-walker's
`Value` stores arrays by value inside its variant, `Environment::get`
returns a copy, and `Interpreter::evaluateAssign`'s array branch takes an
`auto&` into the local copy, so `b = a` duplicates the array and
`b[1] = 99` mutates a temporary that is discarded: neither `a` nor even
`b` changes.  Arrays do not have reference semantics in this evaluator. -/
theorem c1_array_alias_mutation_lost :
    (Interpreter.interpret 64 progC1).1.output = ["2", "[1, 2, 3]", "[1, 2, 3]"]
    ∧ (Interpreter.interpret 64 progC1).2 = .ok () := by
  exact ⟨rfl, rfl⟩

/-- The token stream of `1 + 2 * 3` as the lexer would produce it. -/
def toksMul : List Token :=
  [⟨.TOK_INTEGER, "1", 1, 0, 1⟩, ⟨.TOK_PLUS, "+", 1, 2, 1⟩,
   ⟨.TOK_INTEGER, "2", 1, 4, 1⟩, ⟨.TOK_MULTIPLY, "*", 1, 6, 1⟩,
   ⟨.TOK_INTEGER, "3", 1, 8, 1⟩, ⟨.TOK_EOF, "", 1, 9, 0⟩]

/-- C2: the Pratt parser parses `1 + 2 * 3` as `(1 + 2) * 3`, and
printing that expression outputs `9`, not `7`.  `Parser::binary` parses
its right-hand side at `precedence + 1`, but the infix loop continues only
while the context precedence is *strictly* below the next operator's
(`precedence < getPrecedence(peek())`) — so the right-hand side of `+`,
parsed at `PREC_FACTOR`, refuses to absorb the `*` (whose precedence is
exactly `PREC_FACTOR`), and the `*` is instead picked up by the outer
loop with the whole sum as its left operand.  `a = b = c` still groups as
`a = (b = c)` because `Parser::assignment` parses its right side at
`PREC_NONE`. -/
theorem c2_precedence_off_by_one :
    (parseExpression 32 PREC_NONE ⟨toksMul, 0⟩ =
      .ok (.binary (.binary (.literal ⟨.TOK_INTEGER, "1", 1, 0, 1⟩)
                      ⟨.TOK_PLUS, "+", 1, 2, 1⟩
                      (.literal ⟨.TOK_INTEGER, "2", 1, 4, 1⟩))
             ⟨.TOK_MULTIPLY, "*", 1, 6, 1⟩
             (.literal ⟨.TOK_INTEGER, "3", 1, 8, 1⟩),
           ⟨toksMul, 5⟩))
    ∧ (Interpreter.interpret 64
        [.print (.binary (.binary (.literal ⟨.TOK_INTEGER, "1", 1, 0, 1⟩)
                    ⟨.TOK_PLUS, "+", 1, 2, 1⟩
                    (.literal ⟨.TOK_INTEGER, "2", 1, 4, 1⟩))
            ⟨.TOK_MULTIPLY, "*", 1, 6, 1⟩
            (.literal ⟨.TOK_INTEGER, "3", 1, 8, 1⟩))]).1.output = ["9"]
    ∧ (parseExpression 32 PREC_NONE
        ⟨[⟨.TOK_IDENTIFIER, "a", 1, 0, 1⟩, ⟨.TOK_ASSIGN, "=", 1, 2, 1⟩,
          ⟨.TOK_IDENTIFIER, "b", 1, 4, 1⟩, ⟨.TOK_ASSIGN, "=", 1, 6, 1⟩,
          ⟨.TOK_IDENTIFIER, "c", 1, 8, 1⟩, ⟨.TOK_EOF, "", 1, 9, 0⟩], 0⟩ =
      .ok (.assign (.var ⟨.TOK_IDENTIFIER, "a", 1, 0, 1⟩)
             (.assign (.var ⟨.TOK_IDENTIFIER, "b", 1, 4, 1⟩)
                (.var ⟨.TOK_IDENTIFIER, "c", 1, 8, 1⟩)),
           ⟨[⟨.TOK_IDENTIFIER, "a", 1, 0, 1⟩, ⟨.TOK_ASSIGN, "=", 1, 2, 1⟩,
             ⟨.TOK_IDENTIFIER, "b", 1, 4, 1⟩, ⟨.TOK_ASSIGN, "=", 1, 6, 1⟩,
             ⟨.TOK_IDENTIFIER, "c", 1, 8, 1⟩, ⟨.TOK_EOF, "", 1, 9, 0⟩], 5⟩)) := by
  refine ⟨rfl, ?_, rfl⟩
  norm_num [Interpreter.interpret, execStmts, execute, evaluate, evaluateBinary,
    evaluateLiteral, Value.toString, truncInt,
    show stoiModel "1" = 1 from rfl, show stoiModel "2" = 2 from rfl,
    show stoiModel "3" = 3 from rfl]
  rfl

/-- A class `D` with a two-parameter constructor whose body is empty. -/
def classD : ClassObject :=
  .mk "D" none [("constructor", ⟨idT "constructor", [idT "a", idT "b"], [], 0⟩)]

/-- A state whose global environment binds `D` to `classD`. -/
def stD : St := ⟨[⟨[("D", .vcallable (.classObj classD))], none⟩], [], 0, []⟩

/-- A class `D2` with a two-parameter constructor whose body reads its
second parameter (`this.x = b`). -/
def classD2 : ClassObject :=
  .mk "D2" none [("constructor",
    ⟨idT "constructor", [idT "a", idT "b"],
     [.expression (.assign (.get (.var (idT "this")) (idT "x")) (.var (idT "b")))], 0⟩)]

/-- A state whose global environment binds `D2` to `classD2`. -/
def stD2 : St := ⟨[⟨[("D2", .vcallable (.classObj classD2))], none⟩], [], 0, []⟩

/-- C9: `NEW` bypasses the argument-count check that ordinary calls
perform.  `NEW D(1, 2, 3)` on the two-parameter constructor succeeds — the
extra argument is silently dropped, the constructor frame binds only
`this`, `a`, `b` — while the ordinary call `D(1, 2, 3)` raises "Expected 2
arguments but got 3.".  `NEW D2(7)` with one argument leaves the second
parameter undefined in the constructor's environment, so the constructor
body's read of `b` raises "Undefined variable 'b'." instead of an
arity error. -/
theorem c9_new_bypasses_arity :
    (evaluate 32 (.newExpr (idT "D") [intL "1", intL "2", intL "3"]) stD =
      (⟨[⟨[("D", .vcallable (.classObj classD))], none⟩,
         ⟨[("this", .vinstance 0), ("a", .vnum 1), ("b", .vnum 2)], some 0⟩],
        [⟨classD, []⟩], 0, []⟩,
       .ok (.vinstance 0)))
    ∧ (evaluate 32 (.call (.var (idT "D")) [intL "1", intL "2", intL "3"]) stD =
        (stD, .error (.rterr "Expected 2 arguments but got 3.")))
    ∧ (evaluate 32 (.newExpr (idT "D2") [intL "7"]) stD2 =
        (⟨[⟨[("D2", .vcallable (.classObj classD2))], none⟩,
           ⟨[("this", .vinstance 0), ("a", .vnum 7)], some 0⟩],
          [⟨classD2, []⟩], 0, []⟩,
         .error (.rterr "Undefined variable 'b'."))) := by
  exact ⟨rfl, rfl, rfl⟩

/-- C10: reading a property that is neither a field of the instance nor a
method reachable through the class's superclass chain raises "Undefined
property 'name'.": first at the level of `InstanceObject::get` itself, and
then through `Interpreter::evaluateGet` — where the resulting state is
exactly the state after evaluating the object expression, so the failed
read leaves every instance's field table unchanged (fields are created
only by assignment, never by a failed get). -/
theorem c10_undefined_property :
    (∀ (inst : InstanceObject) (name : String),
      lookupAssoc inst.fields name = none →
      inst.klass.findMethod name = none →
      inst.get name = .error (.rterr ("Undefined property '" ++ name ++ "'.")))
    ∧ (∀ (fuel : Nat) (objE : Expr) (nameT : Token) (st st₁ : St) (id : Nat)
        (inst : InstanceObject),
      evaluate fuel objE st = (st₁, .ok (.vinstance id)) →
      st₁.insts[id]? = some inst →
      lookupAssoc inst.fields nameT.lexeme = none →
      inst.klass.findMethod nameT.lexeme = none →
      evaluate (fuel + 1 + 1) (.get objE nameT) st =
        (st₁, .error (.rterr ("Undefined property '" ++ nameT.lexeme ++ "'.")))) := by
  constructor
  · intro inst name h1 h2
    simp [InstanceObject.get, h1, h2]
  · intro fuel objE nameT st st₁ id inst hobj hinst h1 h2
    simp [evaluate, evaluateGet, hobj, hinst, InstanceObject.get, h1, h2]

/-- C10 witness: a fresh instance of a method-less class, read of a
missing property `foo`. -/
theorem c10_undefined_property_witness :
    evaluate (2 + 1 + 1) (.get (.var (idT "o")) (idT "foo"))
        ⟨[⟨[("o", .vinstance 0)], none⟩], [⟨.mk "C" none [], []⟩], 0, []⟩ =
      (⟨[⟨[("o", .vinstance 0)], none⟩], [⟨.mk "C" none [], []⟩], 0, []⟩,
       .error (.rterr ("Undefined property '" ++ "foo" ++ "'."))) := by
  exact c10_undefined_property.2 2 (.var (idT "o")) (idT "foo")
    ⟨[⟨[("o", .vinstance 0)], none⟩], [⟨.mk "C" none [], []⟩], 0, []⟩
    ⟨[⟨[("o", .vinstance 0)], none⟩], [⟨.mk "C" none [], []⟩], 0, []⟩
    0 ⟨.mk "C" none [], []⟩ (by rfl) (by rfl) (by rfl) (by rfl)

/-- C6: class invocation.  `findMethod` checks the class's own table and
otherwise recurses up the superclass chain; invoking a class with no
reachable `constructor` yields a fresh Instance referencing that class and
nothing else; invoking a class whose `constructor` is found runs the
constructor body in a freshly allocated environment whose parent is the
constructor's captured closure, holding `this` bound to the new instance
followed by the parameters bound positionally to the call's arguments —
and the invocation yields the Instance whether the body completes
normally or raises the return signal. -/
theorem c6_class_invocation :
    (∀ (nm : String) (ms : List (String × FunctionObject)) (name : String),
      (ClassObject.mk nm none ms).findMethod name = lookupAssoc ms name)
    ∧ (∀ (nm : String) (sup : ClassObject) (ms : List (String × FunctionObject))
        (name : String), lookupAssoc ms name = none →
        (ClassObject.mk nm (some sup) ms).findMethod name = sup.findMethod name)
    ∧ (∀ (nm : String) (sup : ClassObject) (ms : List (String × FunctionObject))
        (name : String) (f : FunctionObject), lookupAssoc ms name = some f →
        (ClassObject.mk nm (some sup) ms).findMethod name = some f)
    ∧ (∀ (fuel : Nat) (c : ClassObject) (args : List Value) (st : St),
        c.findMethod "constructor" = none →
        ClassObject.call (fuel + 1) c args st =
          ({ st with insts := st.insts ++ [⟨c, []⟩] }, .ok (.vinstance st.insts.length)))
    ∧ (∀ (fuel : Nat) (c : ClassObject) (args : List Value) (st : St)
        (ctor : FunctionObject),
        c.findMethod "constructor" = some ctor →
        (ctor.params.map Token.lexeme).Nodup →
        "this" ∉ ctor.params.map Token.lexeme →
        ClassObject.call (fuel + 1) c args st =
          (match executeBlock fuel ctor.body st.envs.length
              { st with insts := st.insts ++ [⟨c, []⟩],
                        envs := st.envs ++
                          [⟨("this", Value.vinstance st.insts.length) ::
                              (ctor.params.zip args).map (fun pa => (pa.1.lexeme, pa.2)),
                            some ctor.closure⟩] } with
           | (st₃, .ok _) => (st₃, .ok (.vinstance st.insts.length))
           | (st₃, .error (.ret _)) => (st₃, .ok (.vinstance st.insts.length))
           | (st₃, .error e) => (st₃, .error e))) := by
  refine ⟨?_, ?_, ?_, ?_, ?_⟩
  · intro nm ms name
    rfl
  · intro nm sup ms name h
    simp [ClassObject.findMethod, h]
  · intro nm sup ms name f h
    simp [ClassObject.findMethod, h]
  · intro fuel c args st h
    simp [ClassObject.call, h]
  · intro fuel c args st ctor h hnd hthis
    have hbind : bindLoop (upsertAssoc [] "this" (Value.vinstance st.insts.length))
        ctor.params args =
        ("this", Value.vinstance st.insts.length) ::
          (ctor.params.zip args).map (fun pa => (pa.1.lexeme, pa.2)) := by
      have : upsertAssoc ([] : List (String × Value)) "this"
          (Value.vinstance st.insts.length) =
          [("this", Value.vinstance st.insts.length)] := rfl
      rw [this, bindLoop_eq ctor.params args _ hnd ?_]
      · simp
      · intro k hk
        simp only [List.map_cons, List.map_nil, List.mem_singleton]
        intro hkth
        exact hthis (hkth ▸ hk)
    simp only [ClassObject.call, h, hbind]

/-- The constructor declared on class `B` for the C6 witness: one
parameter `p`, body `this.x = k  this.y = p  RETURN 42`, closure frame 0. -/
def ctorB : FunctionObject :=
  ⟨idT "constructor", [idT "p"],
   [ .expression (.assign (.get (.var (idT "this")) (idT "x")) (.var (idT "k")))
   , .expression (.assign (.get (.var (idT "this")) (idT "y")) (.var (idT "p")))
   , .ret (some (intL "42")) ], 0⟩

/-- The C6 witness subclass: `C` inherits from `B` (which holds the
constructor) and declares no methods of its own. -/
def classCsub : ClassObject :=
  .mk "C" (some (.mk "B" none [("constructor", ctorB)])) []

/-- The C6 witness starting state: one global frame holding `k`, which is
the constructor's captured closure (frame 0). -/
def stBC : St := ⟨[⟨[("k", .vstr "closure")], none⟩], [], 0, []⟩

/-- C6 witness: invoking `C` finds the constructor on superclass `B`, runs
it in a fresh frame parented by closure 0 with `this` bound to the new
instance and `p` to the argument, sets `x` from the closure variable and
`y` from the parameter, and yields the instance of `C` despite the
constructor's `RETURN 42`. -/
theorem c6_class_invocation_witness :
    classCsub.findMethod "constructor" = some ctorB
    ∧ ClassObject.call (16 + 1) classCsub [.vnum 5] stBC =
      (⟨[⟨[("k", .vstr "closure")], none⟩,
         ⟨[("this", .vinstance 0), ("p", .vnum 5)], some 0⟩],
        [⟨classCsub, [("x", .vstr "closure"), ("y", .vnum 5)]⟩], 0, []⟩,
       .ok (.vinstance 0)) := by
  refine ⟨rfl, ?_⟩
  rw [c6_class_invocation.2.2.2.2 16 classCsub [.vnum 5] stBC ctorB rfl
    (by decide) (by decide)]
  rfl

/-- C8: whenever `Lexer::string` is entered at an opening quote (state
`start` at the quote, `startLine` the line the quote is on) and the rest
of the source never contains the closing delimiter, the lexer produces
exactly one diagnostic: a Syntax error "Unterminated string." whose line
is the opening quote's line — not the line reached after consuming the
embedded newlines — and whose column is the 0-based offset of the opening
quote within that line.  The second conjunct states the same through the
`scanTokens` loop poised at the quote: the loop snapshots
`start`/`startLine`, `scanToken` consumes the quote and calls
`Lexer::string`, and the resulting error terminates the scan. -/
theorem c8_unterminated_string :
    (∀ (fuel : Nat) (q : Char) (st : LexSt),
      st.current ≤ st.source.length →
      st.source.length - st.current < fuel →
      (∀ j, st.current ≤ j → j < st.source.length → st.source.getD j '\x00' ≠ q) →
      ∃ len, lexString fuel q st =
        .err ⟨.Syntax, st.startLine, st.start - lineStartOf st.source st.start,
              "Unterminated string.", len⟩)
    ∧ (∀ (fuel : Nat) (st : LexSt) (q : Char),
      q = '"' ∨ q = '\'' →
      st.current < st.source.length →
      st.source.getD st.current '\x00' = q →
      (∀ j, st.current + 1 ≤ j → j < st.source.length → st.source.getD j '\x00' ≠ q) →
      st.source.length - st.current ≤ fuel →
      ∃ len, scanLoop (fuel + 1 + 1) st =
        .err ⟨.Syntax, st.line, st.current - lineStartOf st.source st.current,
              "Unterminated string.", len⟩) := by
  constructor
  · intro fuel q st h1 h2 h3
    exact ⟨untermLen st, lexString_no_close q fuel st h1 h2 h3⟩
  · intro fuel st q hq hlt hcq hnoq hfuel
    have hq_ne_nl : q ≠ '\n' := by rcases hq with h | h <;> (subst h; decide)
    have hatEnd : st.atEnd = false := by simp [LexSt.atEnd]; omega
    have hstr := lexString_no_close q fuel
      ⟨st.source, st.tokens, st.current, st.current + 1, st.line, st.line, st.column,
       st.column + 1⟩
      (by simp; omega) (by simp; omega)
      (by intro j hj1 hj2; simp only at hj1 hj2 ⊢; exact hnoq j (by omega) hj2)
    simp only at hstr
    refine ⟨untermLen ⟨st.source, st.tokens, st.current, st.current + 1, st.line, st.line,
      st.column, st.column + 1⟩, ?_⟩
    have hadv : (⟨st.source, st.tokens, st.current, st.current, st.line, st.line,
        st.column, st.column⟩ : LexSt).advancec =
        (q, ⟨st.source, st.tokens, st.current, st.current + 1, st.line, st.line,
             st.column, st.column + 1⟩) := by
      simp only [LexSt.advancec]
      rw [show (⟨st.source, st.tokens, st.current, st.current, st.line, st.line, st.column, st.column⟩ : LexSt).source.getD st.current '\x00' = q from hcq]
      rw [if_neg hq_ne_nl]
    have hscan : scanToken (fuel + 1) ⟨st.source, st.tokens, st.current, st.current,
        st.line, st.line, st.column, st.column⟩ = .err
        ⟨.Syntax, st.line, st.current - lineStartOf st.source st.current,
         "Unterminated string.",
         untermLen ⟨st.source, st.tokens, st.current, st.current + 1, st.line, st.line,
           st.column, st.column + 1⟩⟩ := by
      simp only [scanToken, hadv]
      rcases hq with h | h <;> subst h <;> simp [hstr]
    simp only [scanLoop, hatEnd, Bool.not_false, if_pos trivial]
    rw [show scanToken (fuel + 1) { st with start := st.current, startLine := st.line, startColumn := st.column } = scanToken (fuel + 1) ⟨st.source, st.tokens, st.current, st.current, st.line, st.line, st.column, st.column⟩ from rfl]
    rw [hscan]
    simp

/-- C8 witness: scanning `x = "ab⏎cd` with the loop poised at the opening
quote (index 4, line 1, column 4) yields the single Syntax error
"Unterminated string." at line 1, column 4 — even though the unterminated
literal spans a newline. -/
theorem c8_unterminated_string_witness :
    ∃ len, scanLoop (6 + 1 + 1)
        ⟨("x = \"ab\ncd").toList, [], 0, 4, 1, 1, 0, 4⟩ =
      .err ⟨.Syntax, 1, 4, "Unterminated string.", len⟩ := by
  have h := c8_unterminated_string.2 6 ⟨("x = \"ab\ncd").toList, [], 0, 4, 1, 1, 0, 4⟩ '"'
    (Or.inl rfl) (by decide) (by decide)
    (by
      intro j h1 h2
      simp only at h1 h2 ⊢
      have hlen : ("x = \"ab\ncd").toList.length = 10 := by decide
      rw [hlen] at h2
      interval_cases j <;> decide)
    (by decide)
  simpa using h

end SCSA
